import Mathlib

/-!
Verification of the `meta-fetcher` library (`src/lib.rs`).

The library fetches a web page, extracts link-preview metadata (title,
description, image) with an OGP-first / standard-HTML-fallback rule, and
enforces the target site's `robots.txt` policy before fetching.

We shallowly embed the code.  External collaborators (the `ureq` HTTP
transport, the `select` HTML parser, the `texting_robots` policy library)
are modelled as an explicit environment `Env`; every outbound HTTP request
the code issues is recorded in a trace, so that "no network activity" and
"the page is never fetched" become statements about the trace.
-/

/-- `const USER_AGENT: &str = "MetaFetcher/1.0";` (src/lib.rs line 26). -/
def USER_AGENT : String := "MetaFetcher/1.0"

/-- A node of the parsed HTML document, as seen through the `select` crate:
a tag name, its attributes in order, and its text content (`node.text()`). -/
structure Node where
  name : String
  attrs : List (String × String)
  text : String
  deriving DecidableEq

/-- `node.attr(key)` of the `select` crate: the value of the attribute
named `key`, if the node has one. -/
def Node.attr (n : Node) (key : String) : Option String :=
  (n.attrs.find? (fun a => a.1 == key)).map (fun a => a.2)

/-- `document.find(Attr(key, val)).next()`: the first node, in document
order, whose attribute `key` has value `val`. -/
def findAttr (document : List Node) (key val : String) : Option Node :=
  document.find? (fun n => n.attr key == some val)

/-- `document.find(Name(nm)).next()`: the first node named `nm`. -/
def findName (document : List Node) (nm : String) : Option Node :=
  document.find? (fun n => n.name == nm)

/-- `pub struct Metadata` (src/lib.rs lines 33-37). -/
structure Metadata where
  title : Option String
  description : Option String
  image : Option String
  deriving DecidableEq

/-- The extraction logic of `Metadata::from_url` (src/lib.rs lines 62-91),
applied to a parsed document.  Note line 72 reads the `"context"`
attribute of the `og:description` node, not `"content"`. -/
def extract (document : List Node) : Metadata :=
  let title : Option String :=
    ((findAttr document "property" "og:title").bind
        (fun n => n.attr "content")).orElse
      (fun _ => (findName document "title").map Node.text)
  let description : Option String :=
    ((findAttr document "property" "og:description").bind
        (fun n => n.attr "context")).orElse
      (fun _ => (findAttr document "name" "description").bind
        (fun n => n.attr "content"))
  let image : Option String :=
    (findAttr document "property" "og:image").bind (fun n => n.attr "content")
  Metadata.mk title description image

/-- Whether an HTTP request was made for the robots policy or the page. -/
inductive ReqKind where
  | robots : ReqKind
  | page : ReqKind
  deriving DecidableEq

/-- One outbound HTTP GET request: what it was for, its URL, and the
`User-Agent` header it carried. -/
structure Request where
  kind : ReqKind
  url : String
  userAgent : String
  deriving DecidableEq

/-- Outcome of `ureq::get(url).set("User-Agent", ua).call()` followed by
`into_string()`:
* `callErr` — `call()` returned `Err` (transport error, timeout, or a
  non-success HTTP status, which `ureq` reports as `Err`);
* `okDecodeErr` — `call()` succeeded but `into_string()` failed;
* `okBody s` — the response body decoded to the text `s`. -/
inductive HttpOutcome where
  | callErr : HttpOutcome
  | okDecodeErr : HttpOutcome
  | okBody : String → HttpOutcome
  deriving DecidableEq

/-- A parsed robots policy, queried as `robot.allowed(url)`
(`texting_robots::Robot`). -/
def RobotsPolicy : Type := String → Bool

/-- The external collaborators of the library, modelled as oracles:
`robotsUrl` is `texting_robots::get_robots_url` (`none` = the URL is
malformed and the function returns `Err`); `http` is the `ureq` transport;
`robotNew` is `Robot::new(agent, txt)` (`none` = policy parse failure);
`parse` is `Document::from` of the `select` crate, which never fails. -/
structure Env where
  robotsUrl : String → Option String
  http : Request → HttpOutcome
  robotNew : String → String → Option RobotsPolicy
  parse : String → List Node

/-- The error taxonomy of the spec, standing in for the `anyhow` errors
the code propagates. -/
inductive FetchError where
  | invalidUrl : FetchError
  | httpError : FetchError
  | decodeError : FetchError
  | policyParseError : FetchError
  | robotsDisallowed : FetchError
  deriving DecidableEq

/-- `fn robots_allowed(url: &str) -> anyhow::Result<bool>`
(src/lib.rs lines 96-108), instrumented with the list of HTTP requests it
issues. -/
def robots_allowed (env : Env) (url : String) :
    Except FetchError Bool × List Request :=
  match env.robotsUrl url with
  | none => (Except.error FetchError.invalidUrl, [])
  | some robots_url =>
    match env.http (Request.mk ReqKind.robots robots_url USER_AGENT) with
    | HttpOutcome.callErr =>
      (Except.ok true, [Request.mk ReqKind.robots robots_url USER_AGENT])
    | HttpOutcome.okDecodeErr =>
      (Except.error FetchError.decodeError,
       [Request.mk ReqKind.robots robots_url USER_AGENT])
    | HttpOutcome.okBody robots_txt =>
      match env.robotNew USER_AGENT robots_txt with
      | none =>
        (Except.error FetchError.policyParseError,
         [Request.mk ReqKind.robots robots_url USER_AGENT])
      | some robots =>
        (Except.ok (robots url),
         [Request.mk ReqKind.robots robots_url USER_AGENT])

/-- `Metadata::from_url(url)` (src/lib.rs lines 56-92), instrumented with
the list of HTTP requests it issues. -/
def Metadata.from_url (env : Env) (url : String) :
    Except FetchError Metadata × List Request :=
  match env.http (Request.mk ReqKind.page url USER_AGENT) with
  | HttpOutcome.callErr =>
    (Except.error FetchError.httpError, [Request.mk ReqKind.page url USER_AGENT])
  | HttpOutcome.okDecodeErr =>
    (Except.error FetchError.decodeError, [Request.mk ReqKind.page url USER_AGENT])
  | HttpOutcome.okBody site =>
    (Except.ok (extract (env.parse site)), [Request.mk ReqKind.page url USER_AGENT])

/-- `pub fn fetch_metadata(url: &str) -> anyhow::Result<Metadata>`
(src/lib.rs lines 120-128). -/
def fetch_metadata (env : Env) (url : String) :
    Except FetchError Metadata × List Request :=
  match robots_allowed env url with
  | (Except.ok true, t) =>
    ((Metadata.from_url env url).1, t ++ (Metadata.from_url env url).2)
  | (Except.ok false, t) => (Except.error FetchError.robotsDisallowed, t)
  | (Except.error e, t) => (Except.error e, t)

/-! ### Concrete fixtures used by witnesses and counterexamples -/

/-- A fixture environment whose robots policy denies every URL. -/
def envDeny : Env :=
  Env.mk (fun _ => some "http://e/robots.txt") (fun _ => HttpOutcome.okBody "x")
    (fun _ _ => some (fun _ => false)) (fun _ => [])

/-- A fixture environment in which every HTTP call fails. -/
def envCallErr : Env :=
  Env.mk (fun _ => some "http://e/robots.txt") (fun _ => HttpOutcome.callErr)
    (fun _ _ => none) (fun _ => [])

/-- A fixture environment in which the robots response body cannot be
decoded as text. -/
def envDecodeErr : Env :=
  Env.mk (fun _ => some "http://e/robots.txt") (fun _ => HttpOutcome.okDecodeErr)
    (fun _ _ => none) (fun _ => [])

/-- A fixture environment in which the robots document is retrieved but
cannot be parsed as a policy. -/
def envParseErr : Env :=
  Env.mk (fun _ => some "http://e/robots.txt") (fun _ => HttpOutcome.okBody "x")
    (fun _ _ => none) (fun _ => [])

/-- A fixture environment in which every input URL is malformed
(`get_robots_url` fails). -/
def envBadUrl : Env :=
  Env.mk (fun _ => none) (fun _ => HttpOutcome.okBody "x")
    (fun _ _ => some (fun _ => true)) (fun _ => [])

/-- A fixture environment that allows everything and serves a fixed page. -/
def envAllow : Env :=
  Env.mk (fun _ => some "http://e/robots.txt") (fun _ => HttpOutcome.okBody "page")
    (fun _ _ => some (fun _ => true)) (fun _ => [])

/-- A document holding an `og:description` tag whose value sits in the
conventional `content` attribute, together with a standard
`<meta name="description">` tag. -/
def docOgpContent : List Node :=
  [Node.mk "meta" [("property", "og:description"), ("content", "ogp value")] "",
   Node.mk "meta" [("name", "description"), ("content", "fallback value")] ""]

/-- The round-trip fixture as the claim states it: `og:title`,
`og:description` and `og:image` all carry their values in the
conventional `content` attribute. -/
def docRoundTripContent : List Node :=
  [Node.mk "meta" [("property", "og:title"), ("content", "the title")] "",
   Node.mk "meta" [("property", "og:description"), ("content", "the description")] "",
   Node.mk "meta" [("property", "og:image"), ("content", "the image")] ""]

/-- The round-trip fixture with the description value carried in the
`context` attribute, the attribute the implementation reads. -/
def docRoundTripContext : List Node :=
  [Node.mk "meta" [("property", "og:title"), ("content", "the title")] "",
   Node.mk "meta" [("property", "og:description"), ("context", "the description")] "",
   Node.mk "meta" [("property", "og:image"), ("content", "the image")] ""]

/-- A one-tag document used to exercise duplicate handling. -/
def docDup : List Node :=
  [Node.mk "meta" [("property", "og:title"), ("content", "first title")] ""]

/-! ### Helper lemmas -/

/-- Every request issued by `robots_allowed` is a robots-policy fetch
carrying the fixed user agent. -/
theorem robots_allowed_trace (env : Env) (url : String) :
    ∀ r ∈ (robots_allowed env url).2,
      r.kind = ReqKind.robots ∧ r.userAgent = USER_AGENT := by
  unfold robots_allowed
  split
  · simp
  · split
    · simp
    · simp
    · split <;> simp

/-- `Metadata.from_url` always issues exactly one page request. -/
theorem from_url_trace (env : Env) (url : String) :
    (Metadata.from_url env url).2 = [Request.mk ReqKind.page url USER_AGENT] := by
  unfold Metadata.from_url
  split <;> rfl

/-- Every request of a `fetch_metadata` call comes either from the robots
check or from the page fetch. -/
theorem fetch_metadata_trace_mem (env : Env) (url : String) :
    ∀ r ∈ (fetch_metadata env url).2,
      r ∈ (robots_allowed env url).2 ∨ r ∈ (Metadata.from_url env url).2 := by
  unfold fetch_metadata
  rcases h : robots_allowed env url with ⟨res, t⟩
  rcases res with e | b
  · exact fun r hr => Or.inl hr
  · cases b
    · exact fun r hr => Or.inl hr
    · intro r hr
      simpa using (List.mem_append.mp (by simpa using hr))

/-! ### Claim theorems -/

/-- C1: for every URL, if the retrieved robots policy denies fetching the
URL for the fixed agent identifier, `fetch_metadata` returns the
`robotsDisallowed` error and the page fetch (`Metadata.from_url`) is never
invoked: every request in the trace is a robots-policy fetch, so no page
content is retrieved for a forbidden URL. -/
theorem fetch_metadata_disallowed_no_page_request (env : Env) (url : String)
    (h : (robots_allowed env url).1 = Except.ok false) :
    (fetch_metadata env url).1 = Except.error FetchError.robotsDisallowed ∧
    ∀ r ∈ (fetch_metadata env url).2, r.kind = ReqKind.robots := by
  have ht := robots_allowed_trace env url
  unfold fetch_metadata
  rcases hra : robots_allowed env url with ⟨res, t⟩
  rw [hra] at h ht
  simp only at h
  subst h
  refine ⟨rfl, ?_⟩
  intro r hr
  exact (ht r hr).1

/-- Witness for C1: a concrete environment whose policy denies every URL. -/
theorem fetch_metadata_disallowed_no_page_request_witness :
    (robots_allowed envDeny "http://e/a").1 = Except.ok false ∧
    (fetch_metadata envDeny "http://e/a").1 = Except.error FetchError.robotsDisallowed ∧
    (Request.mk ReqKind.robots "http://e/robots.txt" USER_AGENT).kind = ReqKind.robots :=
  ⟨rfl, (fetch_metadata_disallowed_no_page_request envDeny "http://e/a" rfl).1,
   (fetch_metadata_disallowed_no_page_request envDeny "http://e/a" rfl).2
     (Request.mk ReqKind.robots "http://e/robots.txt" USER_AGENT) (by decide)⟩

/-- C3: for every URL, if the HTTP retrieval of the robots policy document
fails for any reason (`call()` returns `Err`: network error, non-success
status, timeout), the robots check evaluates to allowed and
`fetch_metadata` proceeds to fetch the page as if no policy existed. -/
theorem fetch_metadata_retrieval_failure_allows (env : Env) (url ru : String)
    (h1 : env.robotsUrl url = some ru)
    (h2 : env.http (Request.mk ReqKind.robots ru USER_AGENT) = HttpOutcome.callErr) :
    (robots_allowed env url).1 = Except.ok true ∧
    fetch_metadata env url =
      ((Metadata.from_url env url).1,
       [Request.mk ReqKind.robots ru USER_AGENT,
        Request.mk ReqKind.page url USER_AGENT]) := by
  have hra : robots_allowed env url =
      (Except.ok true, [Request.mk ReqKind.robots ru USER_AGENT]) := by
    simp only [robots_allowed, h1, h2]
  refine ⟨by rw [hra], ?_⟩
  unfold fetch_metadata
  rw [hra, from_url_trace]
  rfl

/-- Witness for C3: a concrete environment where every HTTP call fails. -/
theorem fetch_metadata_retrieval_failure_allows_witness :
    envCallErr.robotsUrl "http://e/a" = some "http://e/robots.txt" ∧
    envCallErr.http (Request.mk ReqKind.robots "http://e/robots.txt" USER_AGENT) =
      HttpOutcome.callErr ∧
    (robots_allowed envCallErr "http://e/a").1 = Except.ok true ∧
    fetch_metadata envCallErr "http://e/a" =
      ((Metadata.from_url envCallErr "http://e/a").1,
       [Request.mk ReqKind.robots "http://e/robots.txt" USER_AGENT,
        Request.mk ReqKind.page "http://e/a" USER_AGENT]) :=
  ⟨rfl, rfl,
   fetch_metadata_retrieval_failure_allows envCallErr "http://e/a" "http://e/robots.txt" rfl rfl⟩

/-- C5: for every URL, if the robots document is successfully retrieved
but `Robot::new` cannot parse its text, the parse failure propagates to
the caller of `fetch_metadata` as the `policyParseError` error, in
contrast to the permissive-allow treatment of retrieval failure. -/
theorem fetch_metadata_policy_parse_error (env : Env) (url ru txt : String)
    (h1 : env.robotsUrl url = some ru)
    (h2 : env.http (Request.mk ReqKind.robots ru USER_AGENT) = HttpOutcome.okBody txt)
    (h3 : env.robotNew USER_AGENT txt = none) :
    robots_allowed env url =
      (Except.error FetchError.policyParseError,
       [Request.mk ReqKind.robots ru USER_AGENT]) ∧
    fetch_metadata env url =
      (Except.error FetchError.policyParseError,
       [Request.mk ReqKind.robots ru USER_AGENT]) := by
  have hra : robots_allowed env url =
      (Except.error FetchError.policyParseError,
       [Request.mk ReqKind.robots ru USER_AGENT]) := by
    simp only [robots_allowed, h1, h2, h3]
  refine ⟨hra, ?_⟩
  unfold fetch_metadata
  rw [hra]

/-- Witness for C5: a concrete environment whose policy text is unparseable. -/
theorem fetch_metadata_policy_parse_error_witness :
    envParseErr.robotNew USER_AGENT "x" = none ∧
    fetch_metadata envParseErr "http://e/a" =
      (Except.error FetchError.policyParseError,
       [Request.mk ReqKind.robots "http://e/robots.txt" USER_AGENT]) :=
  ⟨rfl,
   (fetch_metadata_policy_parse_error envParseErr "http://e/a" "http://e/robots.txt" "x"
     rfl rfl rfl).2⟩

/-- C6: for every malformed input URL (one on which `get_robots_url`
fails, such as the empty string), `fetch_metadata` fails with the
`invalidUrl` error and its request trace is empty: no robots fetch and no
page fetch is ever attempted. -/
theorem fetch_metadata_invalid_url_no_network (env : Env) (url : String)
    (h : env.robotsUrl url = none) :
    fetch_metadata env url = (Except.error FetchError.invalidUrl, []) := by
  have hra : robots_allowed env url = (Except.error FetchError.invalidUrl, []) := by
    simp only [robots_allowed, h]
  unfold fetch_metadata
  rw [hra]

/-- Witness for C6: the empty string in an environment where it is malformed. -/
theorem fetch_metadata_invalid_url_no_network_witness :
    envBadUrl.robotsUrl "" = none ∧
    fetch_metadata envBadUrl "" = (Except.error FetchError.invalidUrl, []) :=
  ⟨rfl, fetch_metadata_invalid_url_no_network envBadUrl "" rfl⟩

/-- C10: for every URL, if the robots policy document is retrieved with a
success status but its body cannot be decoded as text, the robots check
(and hence `fetch_metadata`) returns the `decodeError` error rather than
applying the permissive treat-as-allowed default. -/
theorem fetch_metadata_policy_decode_error (env : Env) (url ru : String)
    (h1 : env.robotsUrl url = some ru)
    (h2 : env.http (Request.mk ReqKind.robots ru USER_AGENT) = HttpOutcome.okDecodeErr) :
    robots_allowed env url =
      (Except.error FetchError.decodeError,
       [Request.mk ReqKind.robots ru USER_AGENT]) ∧
    fetch_metadata env url =
      (Except.error FetchError.decodeError,
       [Request.mk ReqKind.robots ru USER_AGENT]) := by
  have hra : robots_allowed env url =
      (Except.error FetchError.decodeError,
       [Request.mk ReqKind.robots ru USER_AGENT]) := by
    simp only [robots_allowed, h1, h2]
  refine ⟨hra, ?_⟩
  unfold fetch_metadata
  rw [hra]

/-- Witness for C10: a concrete environment whose robots response body is
undecodable. -/
theorem fetch_metadata_policy_decode_error_witness :
    envDecodeErr.http (Request.mk ReqKind.robots "http://e/robots.txt" USER_AGENT) =
      HttpOutcome.okDecodeErr ∧
    fetch_metadata envDecodeErr "http://e/a" =
      (Except.error FetchError.decodeError,
       [Request.mk ReqKind.robots "http://e/robots.txt" USER_AGENT]) :=
  ⟨rfl,
   (fetch_metadata_policy_decode_error envDecodeErr "http://e/a" "http://e/robots.txt"
     rfl rfl).2⟩

/-- C9: every outbound HTTP request of `fetch_metadata` — the robots fetch
and the page fetch alike — carries the fixed constant `USER_AGENT` as its
user-agent, and the robots policy is parsed for that same identifier: the
result depends on the policy-parsing oracle only through its value at
`USER_AGENT`, so the identifier is an implementation constant, not a
caller-supplied parameter. -/
theorem fetch_metadata_fixed_user_agent (env : Env) (url : String) :
    (∀ r ∈ (fetch_metadata env url).2, r.userAgent = USER_AGENT) ∧
    (∀ f : String → String → Option RobotsPolicy,
      (∀ txt, f USER_AGENT txt = env.robotNew USER_AGENT txt) →
      fetch_metadata (Env.mk env.robotsUrl env.http f env.parse) url =
        fetch_metadata env url) := by
  constructor
  · intro r hr
    rcases fetch_metadata_trace_mem env url r hr with h | h
    · exact (robots_allowed_trace env url r h).2
    · rw [from_url_trace] at h
      simp only [List.mem_singleton] at h
      subst h
      rfl
  · intro f hf
    have hra : robots_allowed (Env.mk env.robotsUrl env.http f env.parse) url =
        robots_allowed env url := by
      unfold robots_allowed
      rcases h : env.robotsUrl url with _ | ru
      · simp only [h]
      · simp only [h]
        rcases h2 : env.http (Request.mk ReqKind.robots ru USER_AGENT) with _ | _ | txt
        · simp only [h2]
        · simp only [h2]
        · simp only [h2, hf txt]
    have hfu : Metadata.from_url (Env.mk env.robotsUrl env.http f env.parse) url =
        Metadata.from_url env url := rfl
    unfold fetch_metadata
    rw [hra, hfu]

/-- Witness for C9: the robots request of a concrete allowing environment
carries `USER_AGENT`, and replacing the policy parser by one that agrees
at `USER_AGENT` leaves the result unchanged. -/
theorem fetch_metadata_fixed_user_agent_witness :
    (Request.mk ReqKind.robots "http://e/robots.txt" USER_AGENT).userAgent = USER_AGENT ∧
    fetch_metadata (Env.mk envAllow.robotsUrl envAllow.http envAllow.robotNew envAllow.parse)
        "http://e/a" =
      fetch_metadata envAllow "http://e/a" :=
  ⟨(fetch_metadata_fixed_user_agent envAllow "http://e/a").1
     (Request.mk ReqKind.robots "http://e/robots.txt" USER_AGENT) (by decide),
   (fetch_metadata_fixed_user_agent envAllow "http://e/a").2 envAllow.robotNew (fun _ => rfl)⟩

/-- C2 counterexample: the document `docOgpContent` contains an
`og:description` tag carrying "ogp value" in its conventional `content`
attribute, yet extraction returns the standard-HTML fallback value: the
fallback IS consulted although the OGP tag is present, refuting the
claimed strict per-field precedence. -/
theorem extract_ogp_description_precedence_cex :
    (extract docOgpContent).description = some "fallback value" ∧
    (extract docOgpContent).description ≠ some "ogp value" :=
  ⟨rfl, by decide⟩

/-- C2 (amended): for the title field, if the first `og:title` node
carries a `content` attribute, its value (even the empty string) is taken
and the `<title>` fallback is not consulted, regardless of document
order; the fallback is consulted when no `og:title` node exists.  For the
description field the implementation reads the `context` attribute of the
first `og:description` node: its value wins when that attribute is
present, and the `<meta name="description">` fallback is consulted
whenever the attribute is absent — including when the tag is present with
a conventional `content` attribute — or no `og:description` node exists. -/
theorem extract_ogp_precedence_amended (document : List Node) :
    (∀ e v, findAttr document "property" "og:title" = some e →
      e.attr "content" = some v → (extract document).title = some v) ∧
    (findAttr document "property" "og:title" = none →
      (extract document).title = (findName document "title").map Node.text) ∧
    (∀ e v, findAttr document "property" "og:description" = some e →
      e.attr "context" = some v → (extract document).description = some v) ∧
    (∀ e, findAttr document "property" "og:description" = some e →
      e.attr "context" = none →
      (extract document).description =
        (findAttr document "name" "description").bind (fun n => n.attr "content")) ∧
    (findAttr document "property" "og:description" = none →
      (extract document).description =
        (findAttr document "name" "description").bind (fun n => n.attr "content")) := by
  refine ⟨?_, ?_, ?_, ?_, ?_⟩
  · intro e v he hv
    simp only [extract, he, hv, Option.some_bind]
    rfl
  · intro he
    simp only [extract, he, Option.none_bind]
    rfl
  · intro e v he hv
    simp only [extract, he, hv, Option.some_bind]
    rfl
  · intro e he hv
    simp only [extract, he, hv, Option.some_bind]
    rfl
  · intro he
    simp only [extract, he, Option.none_bind]
    rfl

/-- Witness for C2 (amended): on `docOgpContent` the `og:description`
node lacks a `context` attribute, so the fallback path is taken. -/
theorem extract_ogp_precedence_amended_witness :
    (extract docOgpContent).description =
      (findAttr docOgpContent "name" "description").bind (fun n => n.attr "content") :=
  (extract_ogp_precedence_amended docOgpContent).2.2.2.1
    (Node.mk "meta" [("property", "og:description"), ("content", "ogp value")] "")
    (by decide) (by decide)

/-- C4 counterexample: on the fixture whose `og:description` value sits in
the conventional `content` attribute, extraction returns title and image
but an absent description, not the three embedded values. -/
theorem extract_roundtrip_cex :
    extract docRoundTripContent =
      Metadata.mk (some "the title") none (some "the image") ∧
    extract docRoundTripContent ≠
      Metadata.mk (some "the title") (some "the description") (some "the image") :=
  ⟨rfl, by decide⟩

/-- C4 (amended): for a fixed HTML document containing an `og:title` tag,
an `og:description` tag carrying its value in the `context` attribute —
the attribute the implementation actually reads, not the conventional
`content` attribute — and an `og:image` tag, extraction returns a
`Metadata` whose title, description and image are exactly the three
embedded string values. -/
theorem extract_roundtrip_amended :
    extract docRoundTripContext =
      Metadata.mk (some "the title") (some "the description") (some "the image") := rfl

/-- C7: extraction never fails: whenever the page body is retrieved,
`Metadata.from_url` returns a `Metadata` value (never an error), and a
tag that is not found yields an absent (`none`) field for title,
description, or image rather than an error — on any document, including
the empty one. -/
theorem extract_never_fails_absent_fields :
    (∀ (env : Env) (url s : String),
      env.http (Request.mk ReqKind.page url USER_AGENT) = HttpOutcome.okBody s →
      (Metadata.from_url env url).1 = Except.ok (extract (env.parse s))) ∧
    (∀ document : List Node, findAttr document "property" "og:title" = none →
      findName document "title" = none → (extract document).title = none) ∧
    (∀ document : List Node, findAttr document "property" "og:description" = none →
      findAttr document "name" "description" = none →
      (extract document).description = none) ∧
    (∀ document : List Node, findAttr document "property" "og:image" = none →
      (extract document).image = none) := by
  refine ⟨?_, ?_, ?_, ?_⟩
  · intro env url s h
    simp only [Metadata.from_url, h]
  · intro document h1 h2
    simp only [extract, h1, h2, Option.none_bind, Option.map_none]
    rfl
  · intro document h1 h2
    simp only [extract, h1, h2, Option.none_bind]
    rfl
  · intro document h1
    simp only [extract, h1, Option.none_bind]

/-- Witness for C7: a concrete environment serving a fixed page, and the
empty document, whose fields are all absent. -/
theorem extract_never_fails_absent_fields_witness :
    (Metadata.from_url envAllow "http://e/a").1 = Except.ok (extract (envAllow.parse "page")) ∧
    (extract ([] : List Node)).title = none :=
  ⟨(extract_never_fails_absent_fields).1 envAllow "http://e/a" "page" rfl,
   (extract_never_fails_absent_fields).2.1 [] rfl rfl⟩

/-- C8: only the first matching tag of each kind in document order
determines the extracted value: two documents whose first matches agree
for all five lookups extract identically, and a lookup that already has a
match in a prefix returns that same (first) match however many later
duplicates follow. -/
theorem extract_first_match_only :
    (∀ d₁ d₂ : List Node,
      findAttr d₁ "property" "og:title" = findAttr d₂ "property" "og:title" →
      findName d₁ "title" = findName d₂ "title" →
      findAttr d₁ "property" "og:description" = findAttr d₂ "property" "og:description" →
      findAttr d₁ "name" "description" = findAttr d₂ "name" "description" →
      findAttr d₁ "property" "og:image" = findAttr d₂ "property" "og:image" →
      extract d₁ = extract d₂) ∧
    (∀ (l extra : List Node) (key val : String) (e : Node),
      findAttr l key val = some e → findAttr (l ++ extra) key val = some e) ∧
    (∀ (l extra : List Node) (nm : String) (e : Node),
      findName l nm = some e → findName (l ++ extra) nm = some e) := by
  refine ⟨?_, ?_, ?_⟩
  · intro d₁ d₂ h1 h2 h3 h4 h5
    simp only [extract, h1, h2, h3, h4, h5]
  · intro l extra key val e h
    unfold findAttr at h ⊢
    simp [List.find?_append, h]
  · intro l extra nm e h
    unfold findName at h ⊢
    simp [List.find?_append, h]

/-- Witness for C8: appending a duplicate copy of a document changes
neither the first `og:title` match nor the extracted metadata. -/
theorem extract_first_match_only_witness :
    findAttr (docDup ++ docDup) "property" "og:title" =
      some (Node.mk "meta" [("property", "og:title"), ("content", "first title")] "") ∧
    extract docDup = extract (docDup ++ docDup) :=
  ⟨extract_first_match_only.2.1 docDup docDup "property" "og:title"
     (Node.mk "meta" [("property", "og:title"), ("content", "first title")] "") (by decide),
   extract_first_match_only.1 docDup (docDup ++ docDup)
     (by decide) (by decide) (by decide) (by decide) (by decide)⟩
